import Mathlib

/-
  Shallow embedding of the Ecosend reporting repository
  (src/ecosend_client.py, src/report_1.py .. src/report_4.py).

  Modelling conventions:
  * A contact (a JSON "person" record) is modelled by `Person`.  The two
    timestamp fields and the email are null-or-string in the upstream JSON,
    hence `Option String`; `person.get('smart_groups', [])` is modelled by a
    `List String` field whose value is `[]` when the key is missing.
  * Python dictionaries whose key set is fixed at their creation
    (`hubs_counts` in report_2) are modelled as total functions whose value
    at any key outside the fixed key set is the creation-time default, which
    coincides with the `dict.get(k, default)` semantics used by the source.
  * Python `set` objects are modelled as duplicate-free lists built with
    `setAdd` (membership-guarded insertion); the source only uses `add`,
    `in` and `len` on them, none of which observe iteration order.
  * `datetime.datetime.fromisoformat` is external library code; it is
    modelled as a parameter `parse : String → Option Int` mapping a string
    to the instant (seconds) it denotes, or `none` when parsing fails
    (`ValueError`) or the result is not comparable to the timezone-aware
    cutoff (`TypeError`); both exceptions are caught by the source.
    Instants are integers counting seconds, so `timedelta(days=90)` is
    `90 * 86400` seconds and `datetime.now(utc)` is a parameter `now : Int`.
-/

structure Person where
  email : Option String
  smart_groups : List String
  last_seen : Option String
  engaged_at : Option String
deriving DecidableEq

/-- ecosend_client.py: `FACULTY_SMART_GROUPS` (slug, display name), in
    source declaration order. -/
def FACULTY_SMART_GROUPS : List (String × String) :=
  [("fah-faculty-of-arts-humanities", "FAH (Faculty of Arts & Humanities)"),
   ("fels-faculty-of-environmental-life-sciences", "FELS (Faculty of Environmental & Life Sciences)"),
   ("feps-faculty-of-engineering-physical-sciences", "FEPS (Faculty of Engineering & Physical Sciences)"),
   ("fm-faculty-of-medicine", "FM (Faculty of Medicine)"),
   ("fss-faculty-of-social-sciences", "FSS (Faculty of Social Sciences)"),
   ("professional-services", "Professional Services")]

/-- ecosend_client.py: `HUB_SMART_GROUPS` (slug, display name). -/
def HUB_SMART_GROUPS : List (String × String) :=
  [("artificial-intelligence-ai-society", "Artificial Intelligence (AI) & Society"),
   ("health-wellbeing", "Health & Wellbeing"),
   ("nature-biodiversity-sustainability", "Nature, Biodiversity & Sustainability"),
   ("future-cities", "Future Cities")]

/-- ecosend_client.py: `UOS_SMART_GROUP`. -/
def UOS_SMART_GROUP : String := "work-study-at-the-uos"

/-- ecosend_client.py: `ALUMNI_SMART_GROUP`. -/
def ALUMNI_SMART_GROUP : String := "alumni-of-the-uos"

/-- ecosend_client.py `get_all_people`, the while-loop body.  The upstream
    API is modelled as the list of pages it serves to the successive
    requests; once that list is exhausted every further request yields an
    empty `list` field.  Arguments mirror the loop state: remaining pages,
    `all_people` accumulator, `offset`, and the number of page requests
    issued so far.  Returns the final accumulator and the total number of
    page requests. -/
def get_all_people_go : List (List Person) → List Person → Nat → Nat → List Person × Nat
  | [], acc, _, reqs => (acc, reqs + 1)
  | page :: rest, acc, off, reqs =>
    if page = [] then (acc, reqs + 1)
    else if page.length < 250 then (acc ++ page, reqs + 1)
    else get_all_people_go rest (acc ++ page) (off + page.length) (reqs + 1)

/-- ecosend_client.py `get_all_people` (limit fixed at 250). -/
def get_all_people (pages : List (List Person)) : List Person × Nat :=
  get_all_people_go pages [] 0 0

/-- The expression `person.get('email', '').lower()` common to
    report_1/3/4. -/
def emailStr (p : Person) : String := (p.email.getD "").toLower

/-- Python set `add`: sets are modelled as duplicate-free lists. -/
def setAdd (l : List String) (e : String) : List String :=
  if l.contains e then l else e :: l

/-- `person.get('last_seen') or person.get('engaged_at')` — Python `or`
    returns the second operand when the first is falsy (None or the empty
    string). -/
def timestampChosen (p : Person) : Option String :=
  match p.last_seen with
  | some s => if s = "" then p.engaged_at else some s
  | none => p.engaged_at

/-- The activity test of the per-person loop body of `get_active_emails`
    (report_1.py lines 60-69, duplicated verbatim in report_3.py and, with
    a different insertion target, report_4.py):
    `if last_seen: try: seen_date = fromisoformat(last_seen.replace('Z',
    '+00:00')); if seen_date >= cutoff: ...` with `ValueError`/`TypeError`
    caught and ignored.  All modelled field values are strings, so the
    `isinstance(last_seen, str)` guard is always satisfied. -/
def isActivePerson (parse : String → Option Int) (cutoff : Int) (p : Person) : Bool :=
  match timestampChosen p with
  | none => false
  | some s =>
    if s = "" then false
    else
      match parse (s.replace "Z" "+00:00") with
      | some t => decide (cutoff ≤ t)
      | none => false

/-- report_1.py `get_active_emails` (and its verbatim copy in report_3.py):
    `cutoff = now - timedelta(days=90)`; emails of contacts passing the
    activity test, skipping empty/missing emails. -/
def get_active_emails (parse : String → Option Int) (now : Int)
    (people : List Person) : List String :=
  people.foldl
    (fun acc p =>
      let email := emailStr p
      if email = "" then acc
      else if isActivePerson parse (now - 90 * 86400) p then setAdd acc email
      else acc)
    []

/-- report_1.py `get_list_members`: dict from faculty display name to the
    set of emails of contacts tagged with that faculty's slug. -/
def facultyMembers (people : List Person) : String → List String :=
  people.foldl
    (fun m p =>
      let email := emailStr p
      if email = "" then m
      else
        FACULTY_SMART_GROUPS.foldl
          (fun m2 fs =>
            if p.smart_groups.contains fs.1 then
              fun f => if f = fs.2 then setAdd (m2 f) email else m2 f
            else m2)
          m)
    (fun _ => [])

/-- A row of the three activity reports (report_1/3/4): label, total,
    active, and the numeric value `(active / total * 100) if total > 0
    else 0` that the source then formats to two decimals. -/
structure ActivityRow where
  label : String
  total : Nat
  active : Nat
  pct : ℚ
deriving DecidableEq

/-- The percentage expression `(active / total * 100) if total > 0 else 0`
    shared by report_1/3/4. -/
def pctOf (total active : Nat) : ℚ :=
  if 0 < total then (active : ℚ) / (total : ℚ) * 100 else 0

/-- report_1.py `generate_faculty_activity_report` row construction:
    one row per faculty display name in vocabulary order; the active set is
    `build_active_faculty_members`, i.e. the members also in
    `active_emails`. -/
def facultyActivityRows (parse : String → Option Int) (now : Int)
    (people : List Person) : List ActivityRow :=
  let members := facultyMembers people
  let act := get_active_emails parse now people
  FACULTY_SMART_GROUPS.map
    (fun fs =>
      let total := (members fs.2).length
      let active := ((members fs.2).filter (fun e => act.contains e)).length
      ⟨fs.2, total, active, pctOf total active⟩)

/-- report_2.py: the per-hub counter record created for every hub display
    name (`total`, `non_current`, `current`, `alumni`, and a per-faculty
    dict keyed by faculty display name). -/
structure HubCounts where
  total : Nat
  non_current : Nat
  current : Nat
  alumni : Nat
  faculties : String → Nat

/-- report_2.py: `hubs_counts` at creation — every counter zero. -/
def initHubCounts : String → HubCounts :=
  fun _ => ⟨0, 0, 0, 0, fun _ => 0⟩

/-- `hubs_counts[hub]['total'] += 1`. -/
def bumpTotal (s : String → HubCounts) (hub : String) : String → HubCounts :=
  fun h =>
    if h = hub then
      ⟨(s h).total + 1, (s h).non_current, (s h).current, (s h).alumni, (s h).faculties⟩
    else s h

/-- `hubs_counts[hub]['non_current'] += 1`. -/
def bumpNonCurrent (s : String → HubCounts) (hub : String) : String → HubCounts :=
  fun h =>
    if h = hub then
      ⟨(s h).total, (s h).non_current + 1, (s h).current, (s h).alumni, (s h).faculties⟩
    else s h

/-- `hubs_counts[hub]['current'] += 1`. -/
def bumpCurrent (s : String → HubCounts) (hub : String) : String → HubCounts :=
  fun h =>
    if h = hub then
      ⟨(s h).total, (s h).non_current, (s h).current + 1, (s h).alumni, (s h).faculties⟩
    else s h

/-- `hubs_counts[hub]['alumni'] += 1`. -/
def bumpAlumni (s : String → HubCounts) (hub : String) : String → HubCounts :=
  fun h =>
    if h = hub then
      ⟨(s h).total, (s h).non_current, (s h).current, (s h).alumni + 1, (s h).faculties⟩
    else s h

/-- `hubs_counts[hub]['faculties'][fac]['total'] += 1`. -/
def bumpFacultyAt (fac : String) (s : String → HubCounts) (hub : String) : String → HubCounts :=
  fun h =>
    if h = hub then
      ⟨(s h).total, (s h).non_current, (s h).current, (s h).alumni,
       fun f => if f = fac then (s h).faculties f + 1 else (s h).faculties f⟩
    else s h

/-- report_2.py lines 45-50: the hub display names whose slug is in this
    person's `smart_groups`, in vocabulary order (`hubs_interested`). -/
def hubsInterested (p : Person) : List String :=
  (HUB_SMART_GROUPS.filter (fun hs => p.smart_groups.contains hs.1)).map (fun hs => hs.2)

/-- report_2.py lines 53-57: one step of the faculty loop — when this
    person carries the faculty's slug, bump that faculty's counter in every
    interested hub. -/
def facStepR2 (sg hubs : List String) (s : String → HubCounts)
    (fs : String × String) : String → HubCounts :=
  if sg.contains fs.1 then hubs.foldl (bumpFacultyAt fs.2) s else s

/-- report_2.py lines 42-72: processing of one person — hub totals,
    faculty cross-counts, UoS status, alumni status. -/
def processPerson (s : String → HubCounts) (p : Person) : String → HubCounts :=
  let hubs := hubsInterested p
  let s1 := hubs.foldl bumpTotal s
  let s2 := FACULTY_SMART_GROUPS.foldl (facStepR2 p.smart_groups hubs) s1
  let s3 :=
    if p.smart_groups.contains UOS_SMART_GROUP then hubs.foldl bumpCurrent s2
    else hubs.foldl bumpNonCurrent s2
  if p.smart_groups.contains ALUMNI_SMART_GROUP then hubs.foldl bumpAlumni s3 else s3

/-- report_2.py: `hubs_counts` after the per-person loop. -/
def hubsCounts (people : List Person) : String → HubCounts :=
  people.foldl processPerson initHubCounts

/-- One row of the Membership Breakdown table (report_2.py; the source's
    All-Hubs row additionally carries a report-date string, which no claim
    concerns). -/
structure BreakdownRow where
  pceHub : String
  total : Nat
  nonCurrentUoS : Nat
  currentUoS : Nat
  alumni : Nat
  fah : Nat
  fels : Nat
  feps : Nat
  fm : Nat
  fss : Nat
  ps : Nat
deriving DecidableEq

/-- report_2.py lines 78-92: the emitted row of one hub.  The faculty cells
    read `counts['faculties'].get('FAH', {}).get('total', 0)` etc., i.e.
    they look the short column keys up in the dict keyed by full faculty
    display names (the function model returns the creation-time default 0
    for any key that is never incremented, exactly as the chained
    `.get` defaults do). -/
def hubRow (people : List Person) (hubName : String) : BreakdownRow :=
  let c := hubsCounts people hubName
  ⟨hubName, c.total, c.non_current, c.current, c.alumni,
   c.faculties "FAH", c.faculties "FELS", c.faculties "FEPS",
   c.faculties "FM", c.faculties "FSS", c.faculties "Professional Services"⟩

/-- report_2.py lines 95-108: the synthetic "All Hubs" row, computed by
    `sum(1 for p in people if ...)` over the entire fetched list. -/
def allHubsRow (people : List Person) : BreakdownRow :=
  ⟨"All Hubs", people.length,
   people.countP (fun p => !(p.smart_groups.contains UOS_SMART_GROUP)),
   people.countP (fun p => p.smart_groups.contains UOS_SMART_GROUP),
   people.countP (fun p => p.smart_groups.contains ALUMNI_SMART_GROUP),
   people.countP (fun p => p.smart_groups.contains "fah-faculty-of-arts-humanities"),
   people.countP (fun p => p.smart_groups.contains "fels-faculty-of-environmental-life-sciences"),
   people.countP (fun p => p.smart_groups.contains "feps-faculty-of-engineering-physical-sciences"),
   people.countP (fun p => p.smart_groups.contains "fm-faculty-of-medicine"),
   people.countP (fun p => p.smart_groups.contains "fss-faculty-of-social-sciences"),
   people.countP (fun p => p.smart_groups.contains "professional-services")⟩

/-- report_2.py `generate_membership_breakdown_report` row data: per-hub
    rows in dict insertion order with the All-Hubs row inserted at
    position 0. -/
def membershipRows (people : List Person) : List BreakdownRow :=
  allHubsRow people :: HUB_SMART_GROUPS.map (fun hs => hubRow people hs.2)

/-- report_3.py `get_list_members`: the per-email record stored in the
    `members` dict. -/
structure MemberData where
  interests : List String
  last_seen : Option String
  engaged_at : Option String
deriving DecidableEq

/-- Python dict assignment `m[k] = v`: overwrite in place when the key
    exists, append otherwise (insertion order preserved). -/
def dictInsert (m : List (String × MemberData)) (k : String) (v : MemberData) :
    List (String × MemberData) :=
  if m.any (fun kv => kv.1 = k) then
    m.map (fun kv => if kv.1 = k then (k, v) else kv)
  else m ++ [(k, v)]

/-- report_3.py `get_list_members`: dict from email to hub interests and
    raw timestamps, skipping empty/missing emails. -/
def r3Members (people : List Person) : List (String × MemberData) :=
  people.foldl
    (fun m p =>
      let email := emailStr p
      if email = "" then m
      else dictInsert m email ⟨hubsInterested p, p.last_seen, p.engaged_at⟩)
    []

/-- report_3.py `generate_activity_per_hub_report` row construction: one
    row per hub display name; `hub_members` are the stored emails whose
    interests contain the hub, `active` those also in `active_emails`. -/
def hubActivityRows (parse : String → Option Int) (now : Int)
    (people : List Person) : List ActivityRow :=
  let members := r3Members people
  let act := get_active_emails parse now people
  HUB_SMART_GROUPS.map
    (fun hs =>
      let hubMembers := (members.filter (fun kv => kv.2.interests.contains hs.2)).map (fun kv => kv.1)
      let total := hubMembers.length
      let active := (hubMembers.filter (fun e => act.contains e)).length
      ⟨hs.2, total, active, pctOf total active⟩)

/-- report_4.py `get_list_members`: partition the emails into the `UOS`
    and `Non-UOS` sets by the UoS smart-group tag, skipping empty/missing
    emails. -/
def r4Members (people : List Person) : List String × List String :=
  people.foldl
    (fun ms p =>
      let email := emailStr p
      if email = "" then ms
      else if p.smart_groups.contains UOS_SMART_GROUP then (setAdd ms.1 email, ms.2)
      else (ms.1, setAdd ms.2 email))
    ([], [])

/-- report_4.py `get_active_emails_by_status`, one loop iteration: active
    contacts are routed to the UoS or non-UoS active set by membership in
    the corresponding email set. -/
def r4Step (parse : String → Option Int) (cutoff : Int) (uos nonuos : List String)
    (ac : List String × List String) (p : Person) : List String × List String :=
  let email := emailStr p
  if email = "" then ac
  else if isActivePerson parse cutoff p then
    if uos.contains email then (setAdd ac.1 email, ac.2)
    else if nonuos.contains email then (ac.1, setAdd ac.2 email)
    else ac
  else ac

/-- report_4.py `get_active_emails_by_status`. -/
def r4Active (parse : String → Option Int) (now : Int) (people : List Person)
    (uos nonuos : List String) : List String × List String :=
  people.foldl (r4Step parse (now - 90 * 86400) uos nonuos) ([], [])

/-- report_4.py `generate_uos_non_uos_activity_report` row data: exactly
    the UOS row then the Non-UOS row. -/
def uosActivityRows (parse : String → Option Int) (now : Int)
    (people : List Person) : List ActivityRow :=
  let ms := r4Members people
  let ac := r4Active parse now people ms.1 ms.2
  [⟨"UOS", ms.1.length, ac.1.length, pctOf ms.1.length ac.1.length⟩,
   ⟨"Non-UOS", ms.2.length, ac.2.length, pctOf ms.2.length ac.2.length⟩]

/-- Folding over a list is unaffected by an element on which the fold step
    acts as the identity (used for contacts the reports skip). -/
theorem foldl_middle_id {α β : Type} (f : α → β → α) (q : β)
    (hq : ∀ a, f a q = a) (xs ys : List β) (b : α) :
    (xs ++ q :: ys).foldl f b = (xs ++ ys).foldl f b := by
  induction xs generalizing b with
  | nil => simp [hq]
  | cons x xs ih =>
    simp only [List.cons_append, List.foldl_cons]
    exact ih _

/-- A missing or empty email field yields the empty processed email. -/
theorem emailStr_of_empty {p : Person} (h : p.email = none ∨ p.email = some "") :
    emailStr p = "" := by
  have h2 : p.email.getD "" = "" := by rcases h with h | h <;> simp [h]
  unfold emailStr
  rw [h2]
  unfold String.toLower String.map
  rw [String.mapAux]
  rw [dif_pos (by decide)]

/-- `setAdd` preserves freedom from duplicates. -/
theorem setAdd_nodup {l : List String} {e : String} (h : l.Nodup) :
    (setAdd l e).Nodup := by
  by_cases hc : e ∈ l
  · simpa [setAdd, hc] using h
  · simp only [setAdd]
    rw [if_neg (by simpa using hc)]
    exact List.nodup_cons.2 ⟨hc, h⟩

/-- `setAdd` stays inside any superset containing the new element. -/
theorem setAdd_subset {l S : List String} {e : String} (hl : l ⊆ S) (he : e ∈ S) :
    setAdd l e ⊆ S := by
  by_cases hc : e ∈ l
  · simpa [setAdd, hc] using hl
  · simp only [setAdd]
    rw [if_neg (by simpa using hc)]
    intro a ha
    rcases List.mem_cons.1 ha with h | h
    · subst h; exact he
    · exact hl h

/-- A duplicate-free list included in another list is no longer than it. -/
theorem nodup_subset_length_le {l1 l2 : List String} (h : l1.Nodup) (hs : l1 ⊆ l2) :
    l1.length ≤ l2.length :=
  calc l1.length = l1.toFinset.card := (List.toFinset_card_of_nodup h).symm
    _ ≤ l2.toFinset.card := Finset.card_le_card (fun a ha => by
        simp only [List.mem_toFinset] at ha ⊢
        exact hs ha)
    _ ≤ l2.length := l2.toFinset_card_le

/-- Bounds of the shared percentage expression. -/
theorem pctOf_bounds {t a : Nat} (h : a ≤ t) :
    0 ≤ pctOf t a ∧ pctOf t a ≤ 100 ∧ (t = 0 → pctOf t a = 0) := by
  unfold pctOf
  by_cases ht : 0 < t
  · rw [if_pos ht]
    refine ⟨by positivity, ?_, fun h0 => by rw [h0] at ht; exact absurd ht (lt_irrefl 0)⟩
    have htQ : (0 : ℚ) < t := by exact_mod_cast ht
    have haQ : (a : ℚ) ≤ t := by exact_mod_cast h
    have hdiv : (a : ℚ) / t ≤ 1 := (div_le_one htQ).2 haQ
    calc (a : ℚ) / t * 100 ≤ 1 * 100 := mul_le_mul_of_nonneg_right hdiv (by norm_num)
      _ = 100 := by norm_num
  · rw [if_neg ht]
    exact ⟨le_refl 0, by norm_num, fun _ => rfl⟩

/-- Counting in a cons, phrased with a propositional equality test. -/
theorem count_cons_eq (a H : String) (l : List String) :
    (a :: l).count H = l.count H + (if H = a then 1 else 0) := by
  by_cases hH : H = a
  · subst hH; simp [List.count_cons]
  · simp [List.count_cons, beq_iff_eq, hH, Ne.symm hH]

/-- Effect of the hub-total bump loop on each counter field. -/
theorem foldl_bumpTotal_fields (l : List String) (s : String → HubCounts) (H : String) :
    ((l.foldl bumpTotal s) H).total = (s H).total + l.count H ∧
    ((l.foldl bumpTotal s) H).non_current = (s H).non_current ∧
    ((l.foldl bumpTotal s) H).current = (s H).current ∧
    ((l.foldl bumpTotal s) H).alumni = (s H).alumni := by
  induction l generalizing s with
  | nil => simp
  | cons a l ih =>
    obtain ⟨h1, h2, h3, h4⟩ := ih (bumpTotal s a)
    refine ⟨?_, ?_, ?_, ?_⟩
    · rw [List.foldl_cons, h1, count_cons_eq]
      simp only [bumpTotal]
      by_cases hH : H = a <;> simp [hH] <;> omega
    · rw [List.foldl_cons, h2]
      simp only [bumpTotal]
      by_cases hH : H = a <;> simp [hH]
    · rw [List.foldl_cons, h3]
      simp only [bumpTotal]
      by_cases hH : H = a <;> simp [hH]
    · rw [List.foldl_cons, h4]
      simp only [bumpTotal]
      by_cases hH : H = a <;> simp [hH]

/-- Effect of the non-current bump loop on each counter field. -/
theorem foldl_bumpNonCurrent_fields (l : List String) (s : String → HubCounts) (H : String) :
    ((l.foldl bumpNonCurrent s) H).total = (s H).total ∧
    ((l.foldl bumpNonCurrent s) H).non_current = (s H).non_current + l.count H ∧
    ((l.foldl bumpNonCurrent s) H).current = (s H).current ∧
    ((l.foldl bumpNonCurrent s) H).alumni = (s H).alumni := by
  induction l generalizing s with
  | nil => simp
  | cons a l ih =>
    obtain ⟨h1, h2, h3, h4⟩ := ih (bumpNonCurrent s a)
    refine ⟨?_, ?_, ?_, ?_⟩
    · rw [List.foldl_cons, h1]
      simp only [bumpNonCurrent]
      by_cases hH : H = a <;> simp [hH]
    · rw [List.foldl_cons, h2, count_cons_eq]
      simp only [bumpNonCurrent]
      by_cases hH : H = a <;> simp [hH] <;> omega
    · rw [List.foldl_cons, h3]
      simp only [bumpNonCurrent]
      by_cases hH : H = a <;> simp [hH]
    · rw [List.foldl_cons, h4]
      simp only [bumpNonCurrent]
      by_cases hH : H = a <;> simp [hH]

/-- Effect of the current bump loop on each counter field. -/
theorem foldl_bumpCurrent_fields (l : List String) (s : String → HubCounts) (H : String) :
    ((l.foldl bumpCurrent s) H).total = (s H).total ∧
    ((l.foldl bumpCurrent s) H).non_current = (s H).non_current ∧
    ((l.foldl bumpCurrent s) H).current = (s H).current + l.count H ∧
    ((l.foldl bumpCurrent s) H).alumni = (s H).alumni := by
  induction l generalizing s with
  | nil => simp
  | cons a l ih =>
    obtain ⟨h1, h2, h3, h4⟩ := ih (bumpCurrent s a)
    refine ⟨?_, ?_, ?_, ?_⟩
    · rw [List.foldl_cons, h1]
      simp only [bumpCurrent]
      by_cases hH : H = a <;> simp [hH]
    · rw [List.foldl_cons, h2]
      simp only [bumpCurrent]
      by_cases hH : H = a <;> simp [hH]
    · rw [List.foldl_cons, h3, count_cons_eq]
      simp only [bumpCurrent]
      by_cases hH : H = a <;> simp [hH] <;> omega
    · rw [List.foldl_cons, h4]
      simp only [bumpCurrent]
      by_cases hH : H = a <;> simp [hH]

/-- Effect of the alumni bump loop on each counter field. -/
theorem foldl_bumpAlumni_fields (l : List String) (s : String → HubCounts) (H : String) :
    ((l.foldl bumpAlumni s) H).total = (s H).total ∧
    ((l.foldl bumpAlumni s) H).non_current = (s H).non_current ∧
    ((l.foldl bumpAlumni s) H).current = (s H).current ∧
    ((l.foldl bumpAlumni s) H).alumni = (s H).alumni + l.count H := by
  induction l generalizing s with
  | nil => simp
  | cons a l ih =>
    obtain ⟨h1, h2, h3, h4⟩ := ih (bumpAlumni s a)
    refine ⟨?_, ?_, ?_, ?_⟩
    · rw [List.foldl_cons, h1]
      simp only [bumpAlumni]
      by_cases hH : H = a <;> simp [hH]
    · rw [List.foldl_cons, h2]
      simp only [bumpAlumni]
      by_cases hH : H = a <;> simp [hH]
    · rw [List.foldl_cons, h3]
      simp only [bumpAlumni]
      by_cases hH : H = a <;> simp [hH]
    · rw [List.foldl_cons, h4, count_cons_eq]
      simp only [bumpAlumni]
      by_cases hH : H = a <;> simp [hH] <;> omega

/-- The faculty bump loop leaves the four scalar counters unchanged. -/
theorem foldl_bumpFacultyAt_fields (fac : String) (l : List String)
    (s : String → HubCounts) (H : String) :
    ((l.foldl (bumpFacultyAt fac) s) H).total = (s H).total ∧
    ((l.foldl (bumpFacultyAt fac) s) H).non_current = (s H).non_current ∧
    ((l.foldl (bumpFacultyAt fac) s) H).current = (s H).current ∧
    ((l.foldl (bumpFacultyAt fac) s) H).alumni = (s H).alumni := by
  induction l generalizing s with
  | nil => simp
  | cons a l ih =>
    obtain ⟨h1, h2, h3, h4⟩ := ih (bumpFacultyAt fac s a)
    refine ⟨?_, ?_, ?_, ?_⟩ <;> rw [List.foldl_cons]
    · rw [h1]
      simp only [bumpFacultyAt]
      by_cases hH : H = a <;> simp [hH]
    · rw [h2]
      simp only [bumpFacultyAt]
      by_cases hH : H = a <;> simp [hH]
    · rw [h3]
      simp only [bumpFacultyAt]
      by_cases hH : H = a <;> simp [hH]
    · rw [h4]
      simp only [bumpFacultyAt]
      by_cases hH : H = a <;> simp [hH]

/-- The whole faculty cross-count loop leaves the four scalar counters
    unchanged. -/
theorem foldl_facStepR2_fields (vocab : List (String × String)) (sg hubs : List String)
    (s : String → HubCounts) (H : String) :
    ((vocab.foldl (facStepR2 sg hubs) s) H).total = (s H).total ∧
    ((vocab.foldl (facStepR2 sg hubs) s) H).non_current = (s H).non_current ∧
    ((vocab.foldl (facStepR2 sg hubs) s) H).current = (s H).current ∧
    ((vocab.foldl (facStepR2 sg hubs) s) H).alumni = (s H).alumni := by
  induction vocab generalizing s with
  | nil => simp
  | cons fs vocab ih =>
    obtain ⟨h1, h2, h3, h4⟩ := ih (facStepR2 sg hubs s fs)
    obtain ⟨g1, g2, g3, g4⟩ := foldl_bumpFacultyAt_fields fs.2 hubs s H
    refine ⟨?_, ?_, ?_, ?_⟩ <;> rw [List.foldl_cons]
    · rw [h1]
      simp only [facStepR2]
      cases hc : sg.contains fs.1 <;> simp [hc, g1]
    · rw [h2]
      simp only [facStepR2]
      cases hc : sg.contains fs.1 <;> simp [hc, g2]
    · rw [h3]
      simp only [facStepR2]
      cases hc : sg.contains fs.1 <;> simp [hc, g3]
    · rw [h4]
      simp only [facStepR2]
      cases hc : sg.contains fs.1 <;> simp [hc, g4]

theorem bt_total (l : List String) (s : String → HubCounts) (H : String) :
    ((l.foldl bumpTotal s) H).total = (s H).total + l.count H :=
  (foldl_bumpTotal_fields l s H).1

theorem bt_nc (l : List String) (s : String → HubCounts) (H : String) :
    ((l.foldl bumpTotal s) H).non_current = (s H).non_current :=
  (foldl_bumpTotal_fields l s H).2.1

theorem bt_cur (l : List String) (s : String → HubCounts) (H : String) :
    ((l.foldl bumpTotal s) H).current = (s H).current :=
  (foldl_bumpTotal_fields l s H).2.2.1

theorem bn_total (l : List String) (s : String → HubCounts) (H : String) :
    ((l.foldl bumpNonCurrent s) H).total = (s H).total :=
  (foldl_bumpNonCurrent_fields l s H).1

theorem bn_nc (l : List String) (s : String → HubCounts) (H : String) :
    ((l.foldl bumpNonCurrent s) H).non_current = (s H).non_current + l.count H :=
  (foldl_bumpNonCurrent_fields l s H).2.1

theorem bn_cur (l : List String) (s : String → HubCounts) (H : String) :
    ((l.foldl bumpNonCurrent s) H).current = (s H).current :=
  (foldl_bumpNonCurrent_fields l s H).2.2.1

theorem bc_total (l : List String) (s : String → HubCounts) (H : String) :
    ((l.foldl bumpCurrent s) H).total = (s H).total :=
  (foldl_bumpCurrent_fields l s H).1

theorem bc_nc (l : List String) (s : String → HubCounts) (H : String) :
    ((l.foldl bumpCurrent s) H).non_current = (s H).non_current :=
  (foldl_bumpCurrent_fields l s H).2.1

theorem bc_cur (l : List String) (s : String → HubCounts) (H : String) :
    ((l.foldl bumpCurrent s) H).current = (s H).current + l.count H :=
  (foldl_bumpCurrent_fields l s H).2.2.1

theorem ba_total (l : List String) (s : String → HubCounts) (H : String) :
    ((l.foldl bumpAlumni s) H).total = (s H).total :=
  (foldl_bumpAlumni_fields l s H).1

theorem ba_nc (l : List String) (s : String → HubCounts) (H : String) :
    ((l.foldl bumpAlumni s) H).non_current = (s H).non_current :=
  (foldl_bumpAlumni_fields l s H).2.1

theorem ba_cur (l : List String) (s : String → HubCounts) (H : String) :
    ((l.foldl bumpAlumni s) H).current = (s H).current :=
  (foldl_bumpAlumni_fields l s H).2.2.1

theorem fs2_total (vocab : List (String × String)) (sg hubs : List String)
    (s : String → HubCounts) (H : String) :
    ((vocab.foldl (facStepR2 sg hubs) s) H).total = (s H).total :=
  (foldl_facStepR2_fields vocab sg hubs s H).1

theorem fs2_nc (vocab : List (String × String)) (sg hubs : List String)
    (s : String → HubCounts) (H : String) :
    ((vocab.foldl (facStepR2 sg hubs) s) H).non_current = (s H).non_current :=
  (foldl_facStepR2_fields vocab sg hubs s H).2.1

theorem fs2_cur (vocab : List (String × String)) (sg hubs : List String)
    (s : String → HubCounts) (H : String) :
    ((vocab.foldl (facStepR2 sg hubs) s) H).current = (s H).current :=
  (foldl_facStepR2_fields vocab sg hubs s H).2.2.1

/-- Net effect of processing one person on a hub's total, current, and
    non-current counters: the total is bumped once for each occurrence of
    the hub among the person's interested hubs, and exactly one of
    current/non-current is bumped the same number of times, according to
    the UoS tag. -/
theorem processPerson_fields (s : String → HubCounts) (p : Person) (H : String) :
    ((processPerson s p) H).total = (s H).total + (hubsInterested p).count H ∧
    ((processPerson s p) H).current = (s H).current +
      (if p.smart_groups.contains UOS_SMART_GROUP then (hubsInterested p).count H else 0) ∧
    ((processPerson s p) H).non_current = (s H).non_current +
      (if p.smart_groups.contains UOS_SMART_GROUP then 0 else (hubsInterested p).count H) := by
  by_cases hu : UOS_SMART_GROUP ∈ p.smart_groups <;>
    by_cases ha : ALUMNI_SMART_GROUP ∈ p.smart_groups <;>
      refine ⟨?_, ?_, ?_⟩ <;>
        simp [processPerson, hu, ha, bt_total, bt_nc, bt_cur, bn_total, bn_nc, bn_cur,
          bc_total, bc_nc, bc_cur, ba_total, ba_nc, ba_cur, fs2_total, fs2_nc, fs2_cur]

/-- The row invariant current + non-current = total is preserved by the
    person-processing loop of report_2. -/
theorem hubsCounts_inv (people : List Person) :
    ∀ (s : String → HubCounts),
      (∀ H, (s H).current + (s H).non_current = (s H).total) →
      ∀ H, ((people.foldl processPerson s) H).current +
          ((people.foldl processPerson s) H).non_current =
          ((people.foldl processPerson s) H).total := by
  induction people with
  | nil => intro s h H; exact h H
  | cons p people ih =>
    intro s h H
    rw [List.foldl_cons]
    apply ih
    intro H2
    obtain ⟨ht, hc, hn⟩ := processPerson_fields s p H2
    rw [ht, hc, hn]
    have hh := h H2
    cases hu : p.smart_groups.contains UOS_SMART_GROUP <;> simp [hu] <;> omega

/-- C10: In the Membership Breakdown report, every row (each per-hub row
    and the "All" row) satisfies current + non-current = total: each
    contact counted in a row's total increments exactly one of the two
    institutional-status counts of that row. -/
theorem C10_membership_status_partition (people : List Person) (r : BreakdownRow)
    (hr : r ∈ membershipRows people) :
    r.currentUoS + r.nonCurrentUoS = r.total := by
  rcases List.mem_cons.1 hr with h | h
  · subst h
    have h2 : people.length =
        people.countP (fun q => q.smart_groups.contains UOS_SMART_GROUP) +
        people.countP (fun q => !(q.smart_groups.contains UOS_SMART_GROUP)) := by
      simpa using
        List.length_eq_countP_add_countP
          (fun q : Person => q.smart_groups.contains UOS_SMART_GROUP) people
    simp only [allHubsRow]
    omega
  · rcases List.mem_map.1 h with ⟨hs, _, rfl⟩
    simp only [hubRow, hubsCounts]
    exact hubsCounts_inv people initHubCounts (fun _ => rfl) hs.2

/-- Concrete instantiation of C10 on a one-contact set. -/
def personW : Person :=
  ⟨some "a@soton.ac.uk", ["artificial-intelligence-ai-society", "work-study-at-the-uos"],
   none, none⟩

/-- Witness for C10: the invariant evaluated on the All row of a concrete
    one-contact run. -/
theorem C10_membership_status_partition_witness :
    (allHubsRow [personW]).currentUoS + (allHubsRow [personW]).nonCurrentUoS =
      (allHubsRow [personW]).total :=
  C10_membership_status_partition [personW] (allHubsRow [personW])
    (List.mem_cons_self _ _)

/-- A contact tagged with both the AI hub and the FAH faculty. -/
def personC1 : Person :=
  ⟨some "x@soton.ac.uk",
   ["artificial-intelligence-ai-society", "fah-faculty-of-arts-humanities"],
   none, none⟩

/-- C1 (code bug): on a one-contact set whose contact is a member of both
    the AI hub and the FAH faculty, the internal accumulator correctly
    counts 1 under the faculty display name, but the emitted AI hub row
    shows 0 in its FAH cell (while its Total is 1), because row
    construction reads the short key "FAH" from the dict keyed by full
    display names. -/
theorem C1_perhub_faculty_cell_dropped :
    ([personC1].countP (fun q =>
        q.smart_groups.contains "artificial-intelligence-ai-society" &&
        q.smart_groups.contains "fah-faculty-of-arts-humanities") = 1) ∧
    ((hubsCounts [personC1] "Artificial Intelligence (AI) & Society").faculties
        "FAH (Faculty of Arts & Humanities)" = 1) ∧
    (((membershipRows [personC1]).get? 1).map BreakdownRow.fah = some 0) ∧
    (((membershipRows [personC1]).get? 1).map BreakdownRow.total = some 1) :=
  ⟨rfl, rfl, rfl, rfl⟩

/-- A contact with no email but a hub tag. -/
def personC2 : Person := ⟨none, ["artificial-intelligence-ai-society"], none, none⟩

/-- C2 (counterexample): a contact with a missing email still increments
    the Membership Breakdown "All" row total and the AI hub row total —
    the claim that such a contact contributes to no aggregated count of
    any report fails for the Membership Breakdown. -/
theorem C2_counterexample :
    personC2.email = none ∧
    ((membershipRows [personC2]).get? 0).map BreakdownRow.total = some 1 ∧
    ((membershipRows [personC2]).get? 1).map BreakdownRow.total = some 1 :=
  ⟨rfl, rfl, rfl⟩

/-- C7: the Membership Breakdown table starts with the synthetic All-Hubs
    row, and that row's total is the cardinality of the entire unfiltered
    contact set while its status and faculty counts are the tag-membership
    counts over all fetched contacts. -/
theorem C7_all_row_unfiltered (people : List Person) :
    membershipRows people =
      allHubsRow people :: HUB_SMART_GROUPS.map (fun hs => hubRow people hs.2) ∧
    (membershipRows people).get? 0 = some (allHubsRow people) ∧
    (allHubsRow people).total = people.length ∧
    (allHubsRow people).currentUoS =
      (people.filter (fun q => q.smart_groups.contains UOS_SMART_GROUP)).length ∧
    (allHubsRow people).nonCurrentUoS =
      (people.filter (fun q => !(q.smart_groups.contains UOS_SMART_GROUP))).length ∧
    (allHubsRow people).alumni =
      (people.filter (fun q => q.smart_groups.contains ALUMNI_SMART_GROUP)).length ∧
    (allHubsRow people).fah =
      (people.filter (fun q => q.smart_groups.contains "fah-faculty-of-arts-humanities")).length ∧
    (allHubsRow people).fels =
      (people.filter (fun q => q.smart_groups.contains "fels-faculty-of-environmental-life-sciences")).length ∧
    (allHubsRow people).feps =
      (people.filter (fun q => q.smart_groups.contains "feps-faculty-of-engineering-physical-sciences")).length ∧
    (allHubsRow people).fm =
      (people.filter (fun q => q.smart_groups.contains "fm-faculty-of-medicine")).length ∧
    (allHubsRow people).fss =
      (people.filter (fun q => q.smart_groups.contains "fss-faculty-of-social-sciences")).length ∧
    (allHubsRow people).ps =
      (people.filter (fun q => q.smart_groups.contains "professional-services")).length := by
  refine ⟨rfl, rfl, rfl, ?_, ?_, ?_, ?_, ?_, ?_, ?_, ?_, ?_⟩ <;>
    simp [allHubsRow, List.countP_eq_length_filter]

/-- C9: the aggregation pipeline of all four reports is deterministic —
    two runs on identical contact sets with the same generation time and
    the same timestamp parser produce identical row data. -/
theorem C9_deterministic (parse : String → Option Int) (now : Int)
    (ps1 ps2 : List Person) (h : ps1 = ps2) :
    facultyActivityRows parse now ps1 = facultyActivityRows parse now ps2 ∧
    membershipRows ps1 = membershipRows ps2 ∧
    hubActivityRows parse now ps1 = hubActivityRows parse now ps2 ∧
    uosActivityRows parse now ps1 = uosActivityRows parse now ps2 := by
  subst h
  exact ⟨rfl, rfl, rfl, rfl⟩

/-- Witness for C9: two identical one-contact runs. -/
theorem C9_deterministic_witness :
    facultyActivityRows (fun _ => none) 0 [personW] = facultyActivityRows (fun _ => none) 0 [personW] ∧
    membershipRows [personW] = membershipRows [personW] ∧
    hubActivityRows (fun _ => none) 0 [personW] = hubActivityRows (fun _ => none) 0 [personW] ∧
    uosActivityRows (fun _ => none) 0 [personW] = uosActivityRows (fun _ => none) 0 [personW] :=
  C9_deterministic (fun _ => none) 0 [personW] [personW] rfl

/-- A contact with an empty processed email is skipped by
    `get_active_emails`. -/
theorem get_active_emails_skip (parse : String → Option Int) (now : Int)
    (xs ys : List Person) (p : Person) (hp : emailStr p = "") :
    get_active_emails parse now (xs ++ p :: ys) = get_active_emails parse now (xs ++ ys) := by
  unfold get_active_emails
  apply foldl_middle_id
  intro acc
  simp [hp]

/-- A contact classified inactive contributes nothing to
    `get_active_emails`, and the remaining contacts are processed as if it
    were absent. -/
theorem get_active_emails_skip_inactive (parse : String → Option Int) (now : Int)
    (xs ys : List Person) (p : Person)
    (hp : isActivePerson parse (now - 90 * 86400) p = false) :
    get_active_emails parse now (xs ++ p :: ys) = get_active_emails parse now (xs ++ ys) := by
  unfold get_active_emails
  apply foldl_middle_id
  intro acc
  have hp2 : isActivePerson parse (now - 7776000) p = false := by simpa using hp
  by_cases he : emailStr p = "" <;> simp [he, hp2]

/-- A contact with an empty processed email is skipped by report_1's
    member collection. -/
theorem facultyMembers_skip (xs ys : List Person) (p : Person) (hp : emailStr p = "") :
    facultyMembers (xs ++ p :: ys) = facultyMembers (xs ++ ys) := by
  unfold facultyMembers
  apply foldl_middle_id
  intro acc
  simp [hp]

/-- A contact with an empty processed email is skipped by report_3's
    member collection. -/
theorem r3Members_skip (xs ys : List Person) (p : Person) (hp : emailStr p = "") :
    r3Members (xs ++ p :: ys) = r3Members (xs ++ ys) := by
  unfold r3Members
  apply foldl_middle_id
  intro acc
  simp [hp]

/-- A contact with an empty processed email is skipped by report_4's
    member partition. -/
theorem r4Members_skip (xs ys : List Person) (p : Person) (hp : emailStr p = "") :
    r4Members (xs ++ p :: ys) = r4Members (xs ++ ys) := by
  unfold r4Members
  apply foldl_middle_id
  intro acc
  simp [hp]

/-- A contact with an empty processed email is skipped by report_4's
    active-set computation, whatever the ambient email sets. -/
theorem r4Active_skip (parse : String → Option Int) (now : Int)
    (xs ys : List Person) (p : Person) (hp : emailStr p = "")
    (uos nonuos : List String) :
    r4Active parse now (xs ++ p :: ys) uos nonuos = r4Active parse now (xs ++ ys) uos nonuos := by
  unfold r4Active
  apply foldl_middle_id
  intro acc
  simp [r4Step, hp]

/-- C2 (amended): a contact whose email is missing or empty contributes to
    no aggregated count of the Faculty Activity, Hub Activity, and
    Institutional-Status Comparison reports — those three pipelines behave
    as if the contact were absent.  (In the Membership Breakdown such a
    contact is counted like any other; see the counterexample.) -/
theorem C2_no_email_excluded_except_breakdown (parse : String → Option Int) (now : Int)
    (xs ys : List Person) (p : Person) (h : p.email = none ∨ p.email = some "") :
    facultyActivityRows parse now (xs ++ p :: ys) = facultyActivityRows parse now (xs ++ ys) ∧
    hubActivityRows parse now (xs ++ p :: ys) = hubActivityRows parse now (xs ++ ys) ∧
    uosActivityRows parse now (xs ++ p :: ys) = uosActivityRows parse now (xs ++ ys) := by
  have hp := emailStr_of_empty h
  have h1 := facultyMembers_skip xs ys p hp
  have h2 := get_active_emails_skip parse now xs ys p hp
  have h3 := r3Members_skip xs ys p hp
  have h4 := r4Members_skip xs ys p hp
  refine ⟨?_, ?_, ?_⟩
  · simp only [facultyActivityRows]
    rw [h1, h2]
  · simp only [hubActivityRows]
    rw [h3, h2]
  · simp only [uosActivityRows]
    rw [h4, r4Active_skip parse now xs ys p hp]

/-- Witness for C2 (amended): a concrete no-email contact between two
    ordinary contacts. -/
theorem C2_no_email_excluded_witness :
    facultyActivityRows (fun _ => none) 0 ([personW] ++ personC2 :: []) =
      facultyActivityRows (fun _ => none) 0 ([personW] ++ []) ∧
    hubActivityRows (fun _ => none) 0 ([personW] ++ personC2 :: []) =
      hubActivityRows (fun _ => none) 0 ([personW] ++ []) ∧
    uosActivityRows (fun _ => none) 0 ([personW] ++ personC2 :: []) =
      uosActivityRows (fun _ => none) 0 ([personW] ++ []) :=
  C2_no_email_excluded_except_breakdown (fun _ => none) 0 [personW] [] personC2 (Or.inl rfl)

/-- A contact whose `last_seen` is the empty string (present, non-null)
    and whose `engaged_at` holds a timestamp. -/
def personC3 : Person := ⟨some "x@y.z", [], some "", some "2025-01-01T00:00:00+00:00"⟩

/-- C3 (counterexample): `last_seen` is present (non-null) yet the value
    fed to the cutoff comparison is `engaged_at`, not `last_seen` — Python
    `or` skips the falsy empty string.  With a parser accepting every
    string the contact is even classified active, although under the
    claimed rule the empty `last_seen` would have been compared (and, being
    the empty string, short-circuited to inactive). -/
theorem C3_counterexample :
    personC3.last_seen = some "" ∧
    timestampChosen personC3 = personC3.engaged_at ∧
    timestampChosen personC3 ≠ personC3.last_seen ∧
    isActivePerson (fun _ => some 0) (0 - 90 * 86400) personC3 = true :=
  ⟨rfl, rfl, by decide, rfl⟩

/-- C3 (amended): the timestamp used is the first truthy of the two
    candidate fields — `last_seen` wins whenever it is non-null and
    non-empty, and `engaged_at` is consulted when `last_seen` is null,
    absent, or the empty string. -/
theorem C3_first_truthy (p : Person) :
    (∀ s, p.last_seen = some s → s ≠ "" → timestampChosen p = some s) ∧
    ((p.last_seen = none ∨ p.last_seen = some "") → timestampChosen p = p.engaged_at) := by
  constructor
  · intro s hs hne
    simp [timestampChosen, hs, hne]
  · intro h
    rcases h with h | h <;> simp [timestampChosen, h]

/-- Witness for C3 (amended): both branches at concrete contacts. -/
theorem C3_first_truthy_witness :
    timestampChosen ⟨some "x@y.z", [], some "A", some "B"⟩ = some "A" ∧
    timestampChosen personC3 = personC3.engaged_at :=
  ⟨(C3_first_truthy ⟨some "x@y.z", [], some "A", some "B"⟩).1 "A" rfl (by decide),
   (C3_first_truthy personC3).2 (Or.inr rfl)⟩

/-- C5: for every contact whose chosen timestamp string parses to an
    instant, the activity flag is true iff that instant is at or after
    report-generation time minus 90 days — the boundary is inclusive. -/
theorem C5_window_boundary (parse : String → Option Int) (now : Int) (p : Person)
    (s : String) (t : Int) (hs : timestampChosen p = some s) (hne : s ≠ "")
    (hparse : parse (s.replace "Z" "+00:00") = some t) :
    isActivePerson parse (now - 90 * 86400) p = true ↔ now - 90 * 86400 ≤ t := by
  have hstep : isActivePerson parse (now - 90 * 86400) p =
      (if s = "" then false
       else
         match parse (s.replace "Z" "+00:00") with
         | some t2 => decide (now - 90 * 86400 ≤ t2)
         | none => false) := by
    unfold isActivePerson
    rw [hs]
  rw [hstep, if_neg hne, hparse]
  simp

/-- A contact carrying a timestamp string. -/
def personC5 : Person := ⟨some "a@b.c", [], some "T", none⟩

/-- Witness for C5: an instant exactly 90 days (7776000 seconds) before
    generation time 0 is active; one second earlier is inactive. -/
theorem C5_window_boundary_witness :
    isActivePerson (fun _ => some (-7776000)) (0 - 90 * 86400) personC5 = true ∧
    isActivePerson (fun _ => some (-7776001)) (0 - 90 * 86400) personC5 = false := by
  constructor
  · exact (C5_window_boundary (fun _ => some (-7776000)) 0 personC5 "T" (-7776000)
      rfl (by decide) rfl).2 (by decide)
  · have h := C5_window_boundary (fun _ => some (-7776001)) 0 personC5 "T" (-7776001)
      rfl (by decide) rfl
    cases hb : isActivePerson (fun _ => some (-7776001)) (0 - 90 * 86400) personC5
    · rfl
    · exact absurd (h.1 hb) (by decide)

/-- C8: a contact whose chosen timestamp string fails to parse as a
    timezone-aware instant is classified inactive, and the aggregation of
    the remaining contacts proceeds as if it were absent — a malformed
    timestamp never raises an error or aborts the run. -/
theorem C8_malformed_inactive (parse : String → Option Int) (now : Int)
    (xs ys : List Person) (p : Person) (s : String)
    (hs : timestampChosen p = some s) (hne : s ≠ "")
    (hparse : parse (s.replace "Z" "+00:00") = none) :
    isActivePerson parse (now - 90 * 86400) p = false ∧
    get_active_emails parse now (xs ++ p :: ys) = get_active_emails parse now (xs ++ ys) := by
  have hf : isActivePerson parse (now - 90 * 86400) p = false := by
    have hstep : isActivePerson parse (now - 90 * 86400) p =
        (if s = "" then false
         else
           match parse (s.replace "Z" "+00:00") with
           | some t2 => decide (now - 90 * 86400 ≤ t2)
           | none => false) := by
      unfold isActivePerson
      rw [hs]
    rw [hstep, if_neg hne, hparse]
  exact ⟨hf, get_active_emails_skip_inactive parse now xs ys p hf⟩

/-- A contact whose timestamp string is malformed for a parser rejecting
    every string. -/
def personC8 : Person := ⟨some "c@d.e", [], some "BAD", none⟩

/-- Witness for C8: a concrete malformed-timestamp contact leaves the
    active-email computation of the other contacts unchanged. -/
theorem C8_malformed_inactive_witness :
    isActivePerson (fun _ => none) (0 - 90 * 86400) personC8 = false ∧
    get_active_emails (fun _ => none) 0 ([personW] ++ personC8 :: []) =
      get_active_emails (fun _ => none) 0 ([personW] ++ []) :=
  C8_malformed_inactive (fun _ => none) 0 [personW] [] personC8 "BAD" rfl (by decide) rfl

/-- Characterization of the pagination loop from any loop state: if the
    first i pages are exactly full (250 records) and page i is short, the
    loop appends exactly the first i+1 pages and issues exactly i+1 more
    requests. -/
theorem get_all_people_go_spec :
    ∀ (i : Nat) (pages : List (List Person)) (acc : List Person) (off reqs : Nat),
      (∀ j, j < i → (pages.get? j).map List.length = some 250) →
      ∀ pgi, pages.get? i = some pgi → pgi.length < 250 →
      get_all_people_go pages acc off reqs =
        (acc ++ (pages.take (i + 1)).flatten, reqs + (i + 1)) := by
  intro i
  induction i with
  | zero =>
    intro pages acc off reqs hfull pgi hget hlen
    cases pages with
    | nil => simp at hget
    | cons pg rest =>
      have hpg : pg = pgi := by simpa using hget
      subst hpg
      unfold get_all_people_go
      by_cases hnil : pg = []
      · rw [if_pos hnil]
        subst hnil
        simp
      · rw [if_neg hnil, if_pos hlen]
        simp
  | succ i ih =>
    intro pages acc off reqs hfull pgi hget hlen
    cases pages with
    | nil => simp at hget
    | cons pg rest =>
      have h0 : ((pg :: rest).get? 0).map List.length = some 250 := hfull 0 (Nat.succ_pos i)
      have hpg : pg.length = 250 := by simpa using h0
      have hne : pg ≠ [] := by
        intro h
        rw [h] at hpg
        simp at hpg
      unfold get_all_people_go
      rw [if_neg hne, if_neg (by omega : ¬ pg.length < 250)]
      have hrest := ih rest (acc ++ pg) (off + pg.length) (reqs + 1)
        (fun j hj => by simpa using hfull (j + 1) (by omega))
        pgi (by simpa using hget) hlen
      rw [hrest]
      simp only [List.take_succ_cons, List.flatten_cons, Prod.mk.injEq, List.append_assoc]
      exact ⟨trivial, by omega⟩

/-- A record with no observable fields, used for concrete page scenarios. -/
def dummyPerson : Person := ⟨none, [], none, none⟩

/-- C4: the paginated fetch returns the concatenation of the served pages
    in arrival order, terminating with the first page that is empty or
    shorter than the limit of 250; in particular pages of sizes
    [250, 250, 100] yield exactly 600 records after exactly 3 requests,
    and pages [250, 0] yield 250 records after 2 requests. -/
theorem C4_pagination :
    (∀ (pages : List (List Person)) (i : Nat) (pgi : List Person),
      (∀ j, j < i → (pages.get? j).map List.length = some 250) →
      pages.get? i = some pgi → pgi.length < 250 →
      get_all_people pages = ((pages.take (i + 1)).flatten, i + 1)) ∧
    (get_all_people
        [List.replicate 250 dummyPerson, List.replicate 250 dummyPerson,
         List.replicate 100 dummyPerson] =
      (List.replicate 250 dummyPerson ++ (List.replicate 250 dummyPerson ++
        (List.replicate 100 dummyPerson ++ [])), 3) ∧
      (get_all_people
        [List.replicate 250 dummyPerson, List.replicate 250 dummyPerson,
         List.replicate 100 dummyPerson]).1.length = 600) ∧
    get_all_people [List.replicate 250 dummyPerson, ([] : List Person)] =
      (List.replicate 250 dummyPerson, 2) := by
  have hgen : ∀ (pages : List (List Person)) (i : Nat) (pgi : List Person),
      (∀ j, j < i → (pages.get? j).map List.length = some 250) →
      pages.get? i = some pgi → pgi.length < 250 →
      get_all_people pages = ((pages.take (i + 1)).flatten, i + 1) := by
    intro pages i pgi hfull hget hlen
    unfold get_all_people
    rw [get_all_people_go_spec i pages [] 0 0 hfull pgi hget hlen]
    simp
  have hfull3 : ∀ j, j < 2 →
      (([List.replicate 250 dummyPerson, List.replicate 250 dummyPerson,
         List.replicate 100 dummyPerson] : List (List Person)).get? j).map List.length =
        some 250 := by
    intro j hj
    interval_cases j
    · have hg : ([List.replicate 250 dummyPerson, List.replicate 250 dummyPerson,
          List.replicate 100 dummyPerson] : List (List Person)).get? 0 =
          some (List.replicate 250 dummyPerson) := rfl
      rw [hg, Option.map_some', List.length_replicate]
    · have hg : ([List.replicate 250 dummyPerson, List.replicate 250 dummyPerson,
          List.replicate 100 dummyPerson] : List (List Person)).get? 1 =
          some (List.replicate 250 dummyPerson) := rfl
      rw [hg, Option.map_some', List.length_replicate]
  have h600 := hgen
    [List.replicate 250 dummyPerson, List.replicate 250 dummyPerson,
     List.replicate 100 dummyPerson] 2 (List.replicate 100 dummyPerson)
    hfull3 rfl (by rw [List.length_replicate]; norm_num)
  have h600' : get_all_people
      [List.replicate 250 dummyPerson, List.replicate 250 dummyPerson,
       List.replicate 100 dummyPerson] =
      (List.replicate 250 dummyPerson ++ (List.replicate 250 dummyPerson ++
        (List.replicate 100 dummyPerson ++ [])), 3) := h600
  have hfull1 : ∀ j, j < 1 →
      (([List.replicate 250 dummyPerson, ([] : List Person)] : List (List Person)).get? j).map
        List.length = some 250 := by
    intro j hj
    interval_cases j
    have hg : ([List.replicate 250 dummyPerson, ([] : List Person)] : List (List Person)).get? 0 =
        some (List.replicate 250 dummyPerson) := rfl
    rw [hg, Option.map_some', List.length_replicate]
  have h250 := hgen [List.replicate 250 dummyPerson, ([] : List Person)] 1 []
    hfull1 rfl (by norm_num)
  refine ⟨hgen, ⟨h600', ?_⟩, ?_⟩
  · rw [h600']
    simp only [List.length_append, List.length_replicate, List.length_nil]
  · have htake : (List.take 2 [List.replicate 250 dummyPerson, ([] : List Person)]) =
        [List.replicate 250 dummyPerson, []] := rfl
    rw [h250, htake, List.flatten_cons, List.flatten_cons, List.flatten_nil,
      List.append_nil, List.append_nil]

/-- Witness for C4: a single short page is returned whole after one
    request. -/
theorem C4_pagination_witness :
    get_all_people [[dummyPerson]] = ([dummyPerson], 1) := by
  have h := C4_pagination.1 [[dummyPerson]] 0 [dummyPerson]
    (fun j hj => absurd hj (Nat.not_lt_zero j)) rfl (by norm_num)
  simpa using h

/-- One step of report_4's active-email routing preserves nodup-ness of
    the two active sets and their inclusion in the corresponding member
    sets. -/
theorem r4Step_preserves (parse : String → Option Int) (cutoff : Int)
    (uos nonuos : List String) (ac : List String × List String) (p : Person)
    (h1 : ac.1.Nodup) (h2 : ac.1 ⊆ uos) (h3 : ac.2.Nodup) (h4 : ac.2 ⊆ nonuos) :
    (r4Step parse cutoff uos nonuos ac p).1.Nodup ∧
    (r4Step parse cutoff uos nonuos ac p).1 ⊆ uos ∧
    (r4Step parse cutoff uos nonuos ac p).2.Nodup ∧
    (r4Step parse cutoff uos nonuos ac p).2 ⊆ nonuos := by
  unfold r4Step
  by_cases he : emailStr p = ""
  · simp only [he, if_pos]
    exact ⟨h1, h2, h3, h4⟩
  · cases hact : isActivePerson parse cutoff p
    · simp [he, hact]
      exact ⟨h1, h2, h3, h4⟩
    · by_cases hu : emailStr p ∈ uos
      · simp [he, hact, hu]
        exact ⟨setAdd_nodup h1, setAdd_subset h2 hu, h3, h4⟩
      · by_cases hn : emailStr p ∈ nonuos
        · simp [he, hact, hu, hn]
          exact ⟨h1, h2, setAdd_nodup h3, setAdd_subset h4 hn⟩
        · simp [he, hact, hu, hn]
          exact ⟨h1, h2, h3, h4⟩

/-- report_4's active sets are duplicate-free subsets of the corresponding
    member sets, from any loop state with those properties. -/
theorem r4Active_invariant (parse : String → Option Int) (cutoff : Int)
    (uos nonuos : List String) (people : List Person) :
    ∀ (ac : List String × List String),
      ac.1.Nodup → ac.1 ⊆ uos → ac.2.Nodup → ac.2 ⊆ nonuos →
      (people.foldl (r4Step parse cutoff uos nonuos) ac).1.Nodup ∧
      (people.foldl (r4Step parse cutoff uos nonuos) ac).1 ⊆ uos ∧
      (people.foldl (r4Step parse cutoff uos nonuos) ac).2.Nodup ∧
      (people.foldl (r4Step parse cutoff uos nonuos) ac).2 ⊆ nonuos := by
  induction people with
  | nil => intro ac h1 h2 h3 h4; exact ⟨h1, h2, h3, h4⟩
  | cons p people ih =>
    intro ac h1 h2 h3 h4
    rw [List.foldl_cons]
    obtain ⟨g1, g2, g3, g4⟩ := r4Step_preserves parse cutoff uos nonuos ac p h1 h2 h3 h4
    exact ih _ g1 g2 g3 g4

/-- In report_4, each active count is bounded by the corresponding member
    count. -/
theorem r4_lengths (parse : String → Option Int) (now : Int) (people : List Person) :
    (r4Active parse now people (r4Members people).1 (r4Members people).2).1.length ≤
      (r4Members people).1.length ∧
    (r4Active parse now people (r4Members people).1 (r4Members people).2).2.length ≤
      (r4Members people).2.length := by
  have hinv := r4Active_invariant parse (now - 90 * 86400) (r4Members people).1
    (r4Members people).2 people ([], []) (by simp) (by simp) (by simp) (by simp)
  unfold r4Active
  exact ⟨nodup_subset_length_le hinv.1 hinv.2.1,
    nodup_subset_length_le hinv.2.2.1 hinv.2.2.2⟩

/-- C6: in every aggregated row of the Faculty Activity, Hub Activity and
    Institutional-Status Comparison reports, active ≤ total, the active
    percentage lies in [0, 100], and a zero total yields percentage 0 —
    the division branch is never reached on a zero denominator. -/
theorem C6_row_bounds (parse : String → Option Int) (now : Int) (people : List Person)
    (r : ActivityRow)
    (hr : r ∈ facultyActivityRows parse now people ∨
          r ∈ hubActivityRows parse now people ∨
          r ∈ uosActivityRows parse now people) :
    r.active ≤ r.total ∧ 0 ≤ r.pct ∧ r.pct ≤ 100 ∧ (r.total = 0 → r.pct = 0) := by
  rcases hr with h | h | h
  · simp only [facultyActivityRows] at h
    rcases List.mem_map.1 h with ⟨fs, _, rfl⟩
    have hle : ((facultyMembers people fs.2).filter
        (fun e => (get_active_emails parse now people).contains e)).length ≤
        (facultyMembers people fs.2).length := List.length_filter_le _ _
    obtain ⟨b1, b2, b3⟩ := pctOf_bounds hle
    exact ⟨hle, b1, b2, b3⟩
  · simp only [hubActivityRows] at h
    rcases List.mem_map.1 h with ⟨hs, _, rfl⟩
    have hle : ((((r3Members people).filter
        (fun kv => kv.2.interests.contains hs.2)).map (fun kv => kv.1)).filter
        (fun e => (get_active_emails parse now people).contains e)).length ≤
        (((r3Members people).filter
        (fun kv => kv.2.interests.contains hs.2)).map (fun kv => kv.1)).length :=
      List.length_filter_le _ _
    obtain ⟨b1, b2, b3⟩ := pctOf_bounds hle
    exact ⟨hle, b1, b2, b3⟩
  · simp only [uosActivityRows] at h
    rcases List.mem_cons.1 h with hh | h
    · subst hh
      obtain ⟨b1, b2, b3⟩ := pctOf_bounds (r4_lengths parse now people).1
      exact ⟨(r4_lengths parse now people).1, b1, b2, b3⟩
    · rcases List.mem_cons.1 h with hh | h
      · subst hh
        obtain ⟨b1, b2, b3⟩ := pctOf_bounds (r4_lengths parse now people).2
        exact ⟨(r4_lengths parse now people).2, b1, b2, b3⟩
      · exact absurd h (List.not_mem_nil _)

/-- Witness for C6: bounds evaluated on the UOS row of an empty contact
    set. -/
theorem C6_row_bounds_witness :
    (⟨"UOS", 0, 0, 0⟩ : ActivityRow).active ≤ (⟨"UOS", 0, 0, 0⟩ : ActivityRow).total ∧
    0 ≤ (⟨"UOS", 0, 0, 0⟩ : ActivityRow).pct ∧
    (⟨"UOS", 0, 0, 0⟩ : ActivityRow).pct ≤ 100 ∧
    ((⟨"UOS", 0, 0, 0⟩ : ActivityRow).total = 0 → (⟨"UOS", 0, 0, 0⟩ : ActivityRow).pct = 0) :=
  C6_row_bounds (fun _ => none) 0 [] ⟨"UOS", 0, 0, 0⟩ (Or.inr (Or.inr (by decide)))
